import Mathlib

/-!
Verification development for the signal curve layer: the tagged public-key
wire codec, the input validation shared by the JavaScript backends, the
Ed25519-to-X25519 birational converter of the big-integer WASM backend, and
the key-pair derivation paths of the individual backends.

Machine integers of the source are modelled as `Nat` with explicit masks,
byte strings as `List Nat` (each entry one byte), JavaScript `Buffer`
values as a structure carrying an `isBuffer` flag, and fallible code as
`Except` over explicit error inductives mirroring the thrown messages.
-/

set_option maxRecDepth 10000

deriving instance DecidableEq for Except

namespace Signal

/-- Field prime of Curve25519, `2^255 - 19`, as set up by the byte literal in
`ed25519ToX25519PublicKey` (src/unnamed/part_003). -/
def p25519 : Nat := 2 ^ 255 - 19

/-- Big-endian interpretation of a byte list, mirroring Go `big.Int.SetBytes`. -/
def bytesToNatBE (bs : List Nat) : Nat :=
  bs.foldl (fun acc b => acc * 256 + b) 0

/-- Little-endian interpretation of a byte list (the Ed25519 wire order). -/
def bytesToNatLE (bs : List Nat) : Nat :=
  bytesToNatBE bs.reverse

/-- Little-endian serialization of a number into exactly `w` bytes. -/
def natToBytesLE : Nat → Nat → List Nat
  | 0, _ => []
  | w + 1, n => n % 256 :: natToBytesLE w (n / 256)

/-- Big-endian serialization of a number into exactly `w` bytes, mirroring the
zero-padded copy of `big.Int.Bytes` output into a 32-byte buffer. -/
def natToBytesBE : Nat → Nat → List Nat
  | 0, _ => []
  | w + 1, n => natToBytesBE w (n / 256) ++ [n % 256]

/-- Square-and-multiply modular exponentiation with explicit structural fuel
(`fuel ≥ e` suffices), so that it reduces inside the kernel. -/
def powModAux : Nat → Nat → Nat → Nat → Nat
  | 0, _, _, n => 1 % n
  | fuel + 1, a, e, n =>
    if e = 0 then 1 % n
    else
      let h := powModAux fuel (a * a % n) (e / 2) n
      if e % 2 = 1 then h * a % n else h

/-- Modular exponentiation: `powMod a e n = a ^ e % n` for positive `n`. -/
def powMod (a e n : Nat) : Nat :=
  powModAux e (a % n) e n

/-- Extended Euclid with explicit structural fuel.  `egcd fuel a b` returns
`(g, x, y)` with `g = gcd a b` and `a*x + b*y = g` whenever `b ≤ fuel`.
The fuel makes the definition reduce inside the kernel. -/
def egcd : Nat → Nat → Nat → Nat × Int × Int
  | 0, a, _ => (a, 1, 0)
  | fuel + 1, a, b =>
    if b = 0 then (a, 1, 0)
    else
      let r := egcd fuel b (a % b)
      (r.1, r.2.2, r.2.1 - (a / b : Int) * r.2.2)

/-- Embedding of Go `big.Int.ModInverse(g, n)` (an external collaborator of
`ed25519ToX25519PublicKey`): `none` when `g` and `n` are not coprime,
otherwise the unique inverse of `g` modulo `n` in `[0, n)`, computed by the
extended Euclidean algorithm. -/
def modInverse (g n : Nat) : Option Nat :=
  if (egcd n (g % n) n).1 = 1 then some (((egcd n (g % n) n).2.1 % (n : Int)).toNat)
  else none

/-- Error values of the Go WASM backends, one constructor per distinct
message string thrown back to JavaScript. -/
inductive GoErr where
  /-- Message `invalid ed25519 public key length`. -/
  | invalidEdLength
  /-- Message `invalid ed25519 public key` (used by the non-canonical check,
  the zero-denominator check and the missing-inverse check alike). -/
  | invalidEdKey
  /-- Message `incorrect private key length`. -/
  | incorrectPrivKeyLength
  /-- Message `invalid message`. -/
  | invalidMessage
  /-- Message `invalid public key`. -/
  | invalidPublicKey
  /-- Message `Invalid private key seed` (src/lib/main.go). -/
  | invalidPrivKeySeed
  /-- Model artifact: the retry loop of `createKeyPair` consumed the whole
  modelled randomness stream.  The Go loop would instead keep drawing fresh
  random bytes forever. -/
  | randomnessExhausted
deriving DecidableEq, Repr

/-- Embedding of `ed25519ToX25519PublicKey` (src/unnamed/part_003, Go, WASM
big-integer backend): byte-reverse the 32-byte input, read it as a
big-endian integer `y` (no masking of any bit), reject `y ≥ p`, compute
`numerator = y + 1` and `denominator = p - y + 1` without reduction, reject a
zero denominator, reject a missing modular inverse, and return the 32-byte
little-endian serialization of `(y + 1) * denominator⁻¹ mod p`. -/
def ed25519ToX25519PublicKey (edPubKey : List Nat) : Except GoErr (List Nat) :=
  if edPubKey.length ≠ 32 then .error .invalidEdLength
  else
    let y := bytesToNatBE edPubKey.reverse
    if y ≥ p25519 then .error .invalidEdKey
    else
      let yPlus1 := y + 1
      let yMinus1 := p25519 - y + 1
      if yMinus1 = 0 then .error .invalidEdKey
      else
        match modInverse yMinus1 p25519 with
        | none => .error .invalidEdKey
        | some inv => .ok ((natToBytesBE 32 (yPlus1 * inv % p25519)).reverse)

/-- Variant of the converter with the `denominator == 0` branch removed,
used to show that branch is unreachable (claim C10). -/
def ed25519ToX25519NoDenomCheck (edPubKey : List Nat) : Except GoErr (List Nat) :=
  if edPubKey.length ≠ 32 then .error .invalidEdLength
  else
    let y := bytesToNatBE edPubKey.reverse
    if y ≥ p25519 then .error .invalidEdKey
    else
      let yPlus1 := y + 1
      let yMinus1 := p25519 - y + 1
      match modInverse yMinus1 p25519 with
      | none => .error .invalidEdKey
      | some inv => .ok ((natToBytesBE 32 (yPlus1 * inv % p25519)).reverse)

/-- Converter as claim C1 words it: after the byte reversal the top (sign)
bit is masked to zero and only the remaining 255 bits are interpreted as
`y`; the rest of the pipeline is unchanged.  This follows the claim text,
not the source, and exists to be compared against the source embedding. -/
def maskedConverterClaim (edPubKey : List Nat) : Except GoErr (List Nat) :=
  if edPubKey.length ≠ 32 then .error .invalidEdLength
  else
    let y := bytesToNatBE edPubKey.reverse % 2 ^ 255
    if y ≥ p25519 then .error .invalidEdKey
    else
      let yPlus1 := y + 1
      let yMinus1 := p25519 - y + 1
      if yMinus1 = 0 then .error .invalidEdKey
      else
        match modInverse yMinus1 p25519 with
        | none => .error .invalidEdKey
        | some inv => .ok ((natToBytesBE 32 (yPlus1 * inv % p25519)).reverse)

/-! ### SHA-512 (FIPS 180-4)

The hash underlying `ed25519.NewKeyFromSeed` of golang.org/x/crypto and the
noble/stablelib Ed25519 key derivations; an external collaborator of the
repository, modelled here from its specification. -/

/-- SHA-512 round constants. -/
def shaK : List Nat :=
  [4794697086780616226, 8158064640168781261, 13096744586834688815,
   16840607885511220156, 4131703408338449720, 6480981068601479193,
   10538285296894168987, 12329834152419229976, 15566598209576043074,
   1334009975649890238, 2608012711638119052, 6128411473006802146,
   8268148722764581231, 9286055187155687089, 11230858885718282805,
   13951009754708518548, 16472876342353939154, 17275323862435702243,
   1135362057144423861, 2597628984639134821, 3308224258029322869,
   5365058923640841347, 6679025012923562964, 8573033837759648693,
   10970295158949994411, 12119686244451234320, 12683024718118986047,
   13788192230050041572, 14330467153632333762, 15395433587784984357,
   489312712824947311, 1452737877330783856, 2861767655752347644,
   3322285676063803686, 5560940570517711597, 5996557281743188959,
   7280758554555802590, 8532644243296465576, 9350256976987008742,
   10552545826968843579, 11727347734174303076, 12113106623233404929,
   14000437183269869457, 14369950271660146224, 15101387698204529176,
   15463397548674623760, 17586052441742319658, 1182934255886127544,
   1847814050463011016, 2177327727835720531, 2830643537854262169,
   3796741975233480872, 4115178125766777443, 5681478168544905931,
   6601373596472566643, 7507060721942968483, 8399075790359081724,
   8693463985226723168, 9568029438360202098, 10144078919501101548,
   10430055236837252648, 11840083180663258601, 13761210420658862357,
   14299343276471374635, 14566680578165727644, 15097957966210449927,
   16922976911328602910, 17689382322260857208, 500013540394364858,
   748580250866718886, 1242879168328830382, 1977374033974150939,
   2944078676154940804, 3659926193048069267, 4368137639120453308,
   4836135668995329356, 5532061633213252278, 6448918945643986474,
   6902733635092675308, 7801388544844847127]

/-- SHA-512 initial hash state. -/
def shaH0 : List Nat :=
  [7640891576956012808, 13503953896175478587, 4354685564936845355,
   11912009170470909681, 5840696475078001361, 11170449401992604703,
   2270897969802886507, 6620516959819538809]

/-- Truncation of a number to a 64-bit word. -/
def w64 (x : Nat) : Nat := x % 18446744073709551616

/-- Right rotation of a 64-bit word by `n` bits. -/
def rotr64 (x n : Nat) : Nat := w64 (x / 2 ^ n + x % 2 ^ n * 2 ^ (64 - n))

/-- Bitwise complement of a 64-bit word. -/
def comp64 (x : Nat) : Nat := Nat.xor x (2 ^ 64 - 1)

/-- Three-way exclusive or. -/
def xor3 (a b c : Nat) : Nat := Nat.xor (Nat.xor a b) c

/-- SHA-512 choice function. -/
def chF (x y z : Nat) : Nat := Nat.xor (Nat.land x y) (Nat.land (comp64 x) z)

/-- SHA-512 majority function. -/
def majF (x y z : Nat) : Nat := xor3 (Nat.land x y) (Nat.land x z) (Nat.land y z)

/-- SHA-512 big sigma 0. -/
def bigSigma0 (x : Nat) : Nat := xor3 (rotr64 x 28) (rotr64 x 34) (rotr64 x 39)

/-- SHA-512 big sigma 1. -/
def bigSigma1 (x : Nat) : Nat := xor3 (rotr64 x 14) (rotr64 x 18) (rotr64 x 41)

/-- SHA-512 small sigma 0. -/
def smallSigma0 (x : Nat) : Nat := xor3 (rotr64 x 1) (rotr64 x 8) (x / 2 ^ 7)

/-- SHA-512 small sigma 1. -/
def smallSigma1 (x : Nat) : Nat := xor3 (rotr64 x 19) (rotr64 x 61) (x / 2 ^ 6)

/-- Split a byte string into big-endian 64-bit words. -/
def bytesToWords : List Nat → List Nat
  | b0 :: b1 :: b2 :: b3 :: b4 :: b5 :: b6 :: b7 :: rest =>
    bytesToNatBE [b0, b1, b2, b3, b4, b5, b6, b7] :: bytesToWords rest
  | _ => []

/-- Message-schedule extension appending `fuel` further words. -/
def shaExtend : Nat → List Nat → List Nat
  | 0, w => w
  | f + 1, w =>
    shaExtend f (w ++ [w64 (smallSigma1 (w.getD (w.length - 2) 0) +
      w.getD (w.length - 7) 0 + smallSigma0 (w.getD (w.length - 15) 0) +
      w.getD (w.length - 16) 0)])

/-- One SHA-512 compression round on the eight-word working state. -/
def shaRound (st : List Nat) (kw : Nat × Nat) : List Nat :=
  match st with
  | [a, b, c, d, e, f, g, h] =>
    let t1 := w64 (h + bigSigma1 e + chF e f g + kw.1 + kw.2)
    let t2 := w64 (bigSigma0 a + majF a b c)
    [w64 (t1 + t2), a, b, c, w64 (d + t1), e, f, g]
  | other => other

/-- SHA-512 digest of a message of at most 111 bytes (a single padded
block).  Key derivation only ever hashes 32-byte seeds. -/
def sha512Bytes (msg : List Nat) : List Nat :=
  let padded := msg ++ 128 :: List.replicate (111 - msg.length) 0 ++
    natToBytesBE 16 (msg.length * 8)
  let w := shaExtend 64 (bytesToWords padded)
  let final := (shaK.zip w).foldl (fun st kw => shaRound st (kw.1, kw.2)) shaH0
  ((shaH0.zip final).map fun x => natToBytesBE 8 (w64 (x.1 + x.2))).flatten

/-! ### Edwards25519 and Curve25519 group operations

These model the scalar-multiplication primitives of the external curve
libraries (golang.org/x/crypto/ed25519, noble, tweetnacl, stablelib) per
RFC 8032 and RFC 7748. -/

/-- Field multiplication modulo `p25519`. -/
def fmul (a b : Nat) : Nat := a * b % p25519

/-- Field addition modulo `p25519`. -/
def fadd (a b : Nat) : Nat := (a + b) % p25519

/-- Field subtraction modulo `p25519`. -/
def fsub (a b : Nat) : Nat := (a + (p25519 - b % p25519)) % p25519

/-- Twisted-Edwards curve constant `d = -121665 / 121666 mod p`. -/
def edD : Nat :=
  37095705934669439343138083508754565189542113879843219016388785533085940283555

/-- Point in extended homogeneous coordinates `(X, Y, Z, T)`. -/
abbrev EPoint := Nat × Nat × Nat × Nat

/-- Neutral element of the Edwards group. -/
def edIdentity : EPoint := (0, 1, 1, 0)

/-- Base-point x-coordinate. -/
def edBaseX : Nat :=
  15112221349535400772501151409588531511454012693041857206046113283949847762202

/-- Base-point y-coordinate, `4/5 mod p`. -/
def edBaseY : Nat :=
  46316835694926478169428394003475163141307993866256225615783033603165251855960

/-- Ed25519 base point in extended coordinates. -/
def edBase : EPoint := (edBaseX, edBaseY, 1, fmul edBaseX edBaseY)

/-- Complete unified addition on extended twisted-Edwards coordinates
(also used for doubling). -/
def edAdd (P Q : EPoint) : EPoint :=
  let (x1, y1, z1, t1) := P
  let (x2, y2, z2, t2) := Q
  let A := fmul (fsub y1 x1) (fsub y2 x2)
  let B := fmul (fadd y1 x1) (fadd y2 x2)
  let C := fmul (fmul 2 (fmul edD t1)) t2
  let D := fmul 2 (fmul z1 z2)
  let E := fsub B A
  let F := fsub D C
  let G := fadd D C
  let H := fadd B A
  (fmul E F, fmul G H, fmul F G, fmul E H)

/-- Double-and-add scalar multiplication with structural fuel
(`fuel = 255` covers every clamped scalar). -/
def edScalarMulAux : Nat → Nat → EPoint → EPoint → EPoint
  | 0, _, _, acc => acc
  | f + 1, s, base, acc =>
    if s = 0 then acc
    else edScalarMulAux f (s / 2) (edAdd base base)
      (if s % 2 = 1 then edAdd acc base else acc)

/-- Scalar multiple of the Ed25519 base point. -/
def edScalarMulBase (s : Nat) : EPoint :=
  edScalarMulAux 255 s edBase edIdentity

/-- RFC 8032 scalar clamp: clear the three low bits and bit 255, set
bit 254. -/
def edClamp (x : Nat) : Nat := Nat.lor (Nat.land x (2 ^ 254 - 8)) (2 ^ 254)

/-- Compressed Ed25519 encoding: 32 little-endian bytes of `y` with the
parity of `x` in the top bit. -/
def encodeEdPoint (P : EPoint) : List Nat :=
  let zinv := powMod P.2.2.1 (p25519 - 2) p25519
  let xa := fmul P.1 zinv
  let ya := fmul P.2.1 zinv
  natToBytesLE 32 (ya + xa % 2 * 2 ^ 255)

/-- Ed25519 public key of a 32-byte seed: clamp the first half of
`SHA-512(seed)` and multiply the base point, per RFC 8032.  Models
`ed25519.NewKeyFromSeed(seed).Public()` (Go) and `ed25519.getPublicKey`
(noble). -/
def edPubFromSeed (seed : List Nat) : List Nat :=
  encodeEdPoint (edScalarMulBase (edClamp (bytesToNatLE ((sha512Bytes seed).take 32))))

/-- RFC 7748 scalar clamp for X25519. -/
def montClamp (x : Nat) : Nat := Nat.lor (Nat.land x (2 ^ 255 - 8)) (2 ^ 254)

/-- State of the Montgomery ladder: `(x2, z2, x3, z3, swap)`. -/
abbrev MState := Nat × Nat × Nat × Nat × Nat

/-- Montgomery ladder over the bits `fuel - 1, …, 0` of the scalar `k`,
specialised to the base point `u = 9`. -/
def montLadderAux : Nat → Nat → MState → MState
  | 0, _, st => st
  | f + 1, k, st =>
    let (x2, z2, x3, z3, swap) := st
    let kt := k / 2 ^ f % 2
    let sw := Nat.xor swap kt
    let x2s := if sw = 1 then x3 else x2
    let x3s := if sw = 1 then x2 else x3
    let z2s := if sw = 1 then z3 else z2
    let z3s := if sw = 1 then z2 else z3
    let A := fadd x2s z2s
    let AA := fmul A A
    let B := fsub x2s z2s
    let BB := fmul B B
    let E := fsub AA BB
    let C := fadd x3s z3s
    let D := fsub x3s z3s
    let DA := fmul D A
    let CB := fmul C B
    let x3n := fmul (fadd DA CB) (fadd DA CB)
    let z3n := fmul 9 (fmul (fsub DA CB) (fsub DA CB))
    let x2n := fmul AA BB
    let z2n := fmul E (fadd AA (fmul 121665 E))
    montLadderAux f k (x2n, z2n, x3n, z3n, kt)

/-- X25519 base-point scalar multiplication (RFC 7748, base `u = 9`).
Models `nacl.scalarMult.base` (tweetnacl) and the stablelib X25519 key
derivation. -/
def x25519Base (kBytes : List Nat) : List Nat :=
  let k := montClamp (bytesToNatLE kBytes)
  let st := montLadderAux 255 k (1, 0, 9, 1, 0)
  let x2 := if st.2.2.2.2 = 1 then st.2.2.1 else st.1
  let z2 := if st.2.2.2.2 = 1 then st.2.2.2.1 else st.2.1
  natToBytesLE 32 (fmul x2 (powMod z2 (p25519 - 2) p25519))

/-! ### JavaScript backend embeddings

Binary arguments of the JavaScript operations are modelled as
`Option JSBytes`: `none` stands for `undefined`/`null` (the only falsy
binary arguments — any object, including an empty `Buffer`, is truthy),
and the `isBuffer` flag records whether the value is a Node `Buffer` as
tested by `instanceof Buffer`.  The external curve libraries are passed in
as explicit function parameters. -/

/-- A JavaScript binary value: a byte payload plus whether it is a
Node `Buffer`. -/
structure JSBytes where
  isBuffer : Bool
  bytes : List Nat
deriving DecidableEq, Repr

/-- Error values of the JavaScript backends, one constructor per thrown
message (dynamic interpolation suffixes elided). -/
inductive JsErr where
  /-- Message `Undefined private key`. -/
  | undefinedPrivKey
  /-- Message `Invalid private key type: ...`. -/
  | invalidPrivKeyType
  /-- Message `Incorrect private key length: ...`. -/
  | incorrectPrivKeyLength
  /-- Message `Invalid public key type: ...`. -/
  | invalidPubKeyType
  /-- Message `Invalid public key`. -/
  | invalidPubKey
  /-- Message `Invalid message`. -/
  | invalidMessage
  /-- Message `Invalid signature`. -/
  | invalidSignature
deriving DecidableEq, Repr

/-- Embedding of `validatePrivKey` (src/src/curve.js): undefined, non-Buffer
and wrong-length inputs are rejected; the validated payload is returned for
convenience. -/
def validatePrivKey : Option JSBytes → Except JsErr (List Nat)
  | none => .error .undefinedPrivKey
  | some b =>
    if b.isBuffer = false then .error .invalidPrivKeyType
    else if b.bytes.length ≠ 32 then .error .incorrectPrivKeyLength
    else .ok b.bytes

/-- Embedding of `scrubPubKeyFormat` (src/src/curve.js, curve25519-js
backend): only a `Buffer` of length 33 with leading tag byte 5 (tag
stripped) or of legacy length 32 (returned as is) is accepted. -/
def scrubPubKeyFormat : Option JSBytes → Except JsErr (List Nat)
  | none => .error .invalidPubKeyType
  | some b =>
    if b.isBuffer = false then .error .invalidPubKeyType
    else if (b.bytes.length ≠ 33 ∨ b.bytes.headD 0 ≠ 5) ∧ b.bytes.length ≠ 32 then
      .error .invalidPubKey
    else if b.bytes.length = 33 then .ok b.bytes.tail
    else .ok b.bytes

/-- Embedding of `scrubPubKeyFormat` of the noble variant
(src/unnamed/part_001): same accepted shapes, separate check order. -/
def scrubPubKeyFormatNoble : Option JSBytes → Except JsErr (List Nat)
  | none => .error .invalidPubKeyType
  | some b =>
    if b.isBuffer = false then .error .invalidPubKeyType
    else if b.bytes.length = 33 ∧ b.bytes.headD 0 = 5 then .ok b.bytes.tail
    else if b.bytes.length = 32 then .ok b.bytes
    else .error .invalidPubKey

/-- Tag prepend performed by every `createKeyPair` backend: the 33-byte
wire key is the byte 5 followed by the 32-byte coordinate. -/
def encodePubKey (coordinate : List Nat) : List Nat :=
  5 :: coordinate

/-- Embedding of `createKeyPair` of the curve25519-js backend
(src/src/curve.js): validation, then the external
`curve25519.generateKeyPair`, passed here as `libGen` returning
`(public, private)`. -/
def createKeyPairCjs (libGen : List Nat → List Nat × List Nat)
    (privKey : Option JSBytes) : Except JsErr (List Nat × List Nat) :=
  match validatePrivKey privKey with
  | .error e => .error e
  | .ok seed =>
    let keys := libGen seed
    .ok (encodePubKey keys.1, keys.2)

/-- Embedding of `createKeyPair` of the tweetnacl backend
(src/src/curve.js): the public key is `nacl.scalarMult.base(privKey)`, an
X25519 Montgomery coordinate; the private key is returned verbatim. -/
def createKeyPairTweetnacl (privKey : Option JSBytes) :
    Except JsErr (List Nat × List Nat) :=
  match validatePrivKey privKey with
  | .error e => .error e
  | .ok seed => .ok (encodePubKey (x25519Base seed), seed)

/-- Embedding of `createKeyPair` of the noble backend (src/src/curve.js):
the public key is `ed25519.getPublicKey(privKey)`, an Edwards point
encoding; the private key is returned verbatim. -/
def createKeyPairNoble (privKey : Option JSBytes) :
    Except JsErr (List Nat × List Nat) :=
  match validatePrivKey privKey with
  | .error e => .error e
  | .ok seed => .ok (encodePubKey (edPubFromSeed seed), seed)

/-- Embedding of `calculateAgreement` of the curve25519-js backend
(src/src/curve.js) with the external `curve25519.sharedKey` as `libShared`. -/
def calculateAgreementCjs (libShared : List Nat → List Nat → List Nat)
    (pubKey privKey : Option JSBytes) : Except JsErr (List Nat) :=
  match scrubPubKeyFormat pubKey with
  | .error e => .error e
  | .ok scrubbed =>
    match validatePrivKey privKey with
    | .error e => .error e
    | .ok seed =>
      if scrubbed.length ≠ 32 then .error .invalidPubKey
      else .ok (libShared seed scrubbed)

/-- Embedding of `calculateSignature` of the curve25519-js backend
(src/src/curve.js) with the external `curve25519.sign` as `libSign`;
note that the `!message` guard only fires for an absent message, because
every object — an empty `Buffer` included — is truthy in JavaScript. -/
def calculateSignatureCjs (libSign : List Nat → List Nat → List Nat)
    (privKey : Option JSBytes) (message : Option JSBytes) :
    Except JsErr (List Nat) :=
  match validatePrivKey privKey with
  | .error e => .error e
  | .ok seed =>
    match message with
    | none => .error .invalidMessage
    | some m => .ok (libSign seed m.bytes)

/-- Embedding of `verifySignature` of the curve25519-js backend
(src/src/curve.js): public-key scrub, message and signature shape checks
all run before the `isInit` short circuit; the external cryptographic
check is `libVerify`. -/
def verifySignatureCjs (libVerify : List Nat → List Nat → List Nat → Bool)
    (pubKey msg sig : Option JSBytes) (isInit : Bool) : Except JsErr Bool :=
  match scrubPubKeyFormat pubKey with
  | .error e => .error e
  | .ok scrubbed =>
    if scrubbed.length ≠ 32 then .error .invalidPubKey
    else
      match msg with
      | none => .error .invalidMessage
      | some m =>
        match sig with
        | none => .error .invalidSignature
        | some s =>
          if s.bytes.length ≠ 64 then .error .invalidSignature
          else if isInit then .ok true
          else .ok (libVerify scrubbed m.bytes s.bytes)

/-- Embedding of `verifySignature` of the noble variant
(src/unnamed/part_001): the `isInit` short circuit runs first, before any
decoding or checking. -/
def verifySignatureNoble (libVerify : List Nat → List Nat → List Nat → Bool)
    (pubKey msg sig : Option JSBytes) (isInit : Bool) : Except JsErr Bool :=
  if isInit then .ok true
  else
    match scrubPubKeyFormatNoble pubKey with
    | .error e => .error e
    | .ok scrubbed =>
      if scrubbed.length ≠ 32 then .error .invalidPubKey
      else
        match msg with
        | none => .error .invalidMessage
        | some m =>
          match sig with
          | none => .error .invalidSignature
          | some s =>
            if s.bytes.length ≠ 64 then .error .invalidSignature
            else .ok (libVerify scrubbed m.bytes s.bytes)

/-! ### Go WASM backend embeddings -/

/-- Embedding of `createKeyPair` of src/lib/main.go: derive the Ed25519
key pair from the 32-byte seed and return the tagged public key together
with the full 64-byte `ed25519.PrivateKey`, which Go represents as the
seed concatenated with the public key. -/
def createKeyPairMainGo (seed : List Nat) : Except GoErr (List Nat × List Nat) :=
  if seed.length ≠ 32 then .error .invalidPrivKeySeed
  else
    let pub := edPubFromSeed seed
    .ok (encodePubKey pub, seed ++ pub)

/-- Retry loop of `createKeyPair` of the big-integer WASM backend
(src/unnamed/part_003): derive the Ed25519 public key of the current seed;
if the birational conversion succeeds, return it together with the current
seed (the Go code overwrites the caller buffer `privKey` with each fresh
seed); otherwise replace the seed by the next block of the modelled
randomness stream and retry. -/
def ckpRetryLoop : List (List Nat) → List Nat → Except GoErr (List Nat × List Nat)
  | [], seed =>
    match ed25519ToX25519PublicKey (edPubFromSeed seed) with
    | .ok _ => .ok (encodePubKey (edPubFromSeed seed), seed)
    | .error _ => .error .randomnessExhausted
  | r :: rest, seed =>
    match ed25519ToX25519PublicKey (edPubFromSeed seed) with
    | .ok _ => .ok (encodePubKey (edPubFromSeed seed), seed)
    | .error _ => ckpRetryLoop rest r

/-- Embedding of `createKeyPair` of the big-integer WASM backend
(src/unnamed/part_003): length validation, then the randomized retry loop.
The `rand` parameter models the stream of 32-byte blocks produced by
`rand.Read` on successive retries. -/
def createKeyPairBigInt (privKey : List Nat) (rand : List (List Nat)) :
    Except GoErr (List Nat × List Nat) :=
  if privKey.length ≠ 32 then .error .incorrectPrivKeyLength
  else ckpRetryLoop rand privKey

/-- Embedding of `calculateSignature` of the big-integer WASM backend
(src/unnamed/part_003): length validation, rejection of the empty message,
then the external `ed25519.Sign` passed as `libSign`. -/
def calculateSignatureBigInt (libSign : List Nat → List Nat → List Nat)
    (privKey message : List Nat) : Except GoErr (List Nat) :=
  if privKey.length ≠ 32 then .error .incorrectPrivKeyLength
  else if message.length = 0 then .error .invalidMessage
  else .ok (libSign privKey message)

/-- Concrete seed `01 00 … 00`: its Ed25519 public key has the sign bit
set, so the birational conversion rejects it. -/
def seedOne : List Nat := 1 :: List.replicate 31 0

/-- Concrete seed of 32 zero bytes (the golden-vector scenario seed). -/
def seedZero : List Nat := List.replicate 32 0

/-- Concrete seed `03 00 … 00`: its Ed25519 public key has the sign bit
clear. -/
def seedThree : List Nat := 3 :: List.replicate 31 0

/-! ### Golden vectors

Kernel-checked against the published test vectors: the Ed25519 public key
of the all-zero seed, the X25519 base-point multiple of the all-zero
scalar, and SHA-512 of 32 zero bytes. -/

theorem sha512_golden_zero : sha512Bytes (List.replicate 32 0) =
    [80, 70, 173, 193, 219, 168, 56, 134, 123, 43, 187, 253, 208, 195, 66, 62,
     88, 181, 121, 112, 181, 38, 122, 144, 245, 121, 96, 146, 74, 135, 241, 150,
     10, 106, 133, 234, 166, 66, 218, 200, 53, 66, 75, 93, 124, 141, 99, 124,
     0, 64, 140, 122, 115, 218, 103, 43, 127, 73, 133, 33, 66, 11, 109, 211] := by
  decide

theorem edPub_golden_zero : edPubFromSeed (List.replicate 32 0) =
    [59, 106, 39, 188, 206, 182, 164, 45, 98, 163, 168, 208, 42, 111, 13, 115,
     101, 50, 21, 119, 29, 226, 67, 166, 58, 192, 72, 161, 139, 89, 218, 41] := by
  decide

theorem x25519_golden_zero : x25519Base (List.replicate 32 0) =
    [47, 229, 125, 163, 71, 205, 98, 67, 21, 40, 218, 172, 95, 187, 41, 7,
     48, 255, 246, 132, 175, 196, 207, 194, 237, 144, 153, 95, 88, 203, 59, 116] := by
  decide

/-! ### Correctness of the arithmetic helpers -/

theorem powModAux_spec : ∀ (fuel a e n : Nat), 0 < n → e ≤ fuel →
    powModAux fuel a e n = a ^ e % n := by
  intro fuel
  induction fuel with
  | zero =>
    intro a e n hn he
    have he0 : e = 0 := Nat.le_zero.mp he
    subst he0
    simp [powModAux]
  | succ f ih =>
    intro a e n hn he
    by_cases h0 : e = 0
    · subst h0; simp [powModAux]
    · have hrec := ih (a * a % n) (e / 2) n hn (by omega)
      have hsq : (a * a % n) ^ (e / 2) % n = (a ^ 2) ^ (e / 2) % n := by
        rw [Nat.pow_mod, Nat.mod_mod_of_dvd _ dvd_rfl, ← Nat.pow_mod, pow_two]
      simp only [powModAux, h0, if_false]
      rw [hrec]
      by_cases hpar : e % 2 = 1
      · simp only [hpar, if_true]
        rw [hsq, Nat.mod_mul_mod, ← pow_mul, ← pow_succ]
        have hee : 2 * (e / 2) + 1 = e := by omega
        rw [hee]
      · simp only [hpar, if_false]
        rw [hsq, ← pow_mul]
        have hee : 2 * (e / 2) = e := by omega
        rw [hee]

theorem powMod_spec (a e n : Nat) (hn : 0 < n) : powMod a e n = a ^ e % n := by
  unfold powMod
  rw [powModAux_spec _ _ _ _ hn le_rfl, ← Nat.pow_mod]

theorem powMod_lt (a e n : Nat) (hn : 0 < n) : powMod a e n < n := by
  rw [powMod_spec a e n hn]
  exact Nat.mod_lt _ hn

theorem egcd_spec : ∀ (fuel a b : Nat), b ≤ fuel →
    (egcd fuel a b).1 = Nat.gcd a b ∧
      (a : Int) * (egcd fuel a b).2.1 + (b : Int) * (egcd fuel a b).2.2 =
        ((egcd fuel a b).1 : Int) := by
  intro fuel
  induction fuel with
  | zero =>
    intro a b hb
    have hb0 : b = 0 := Nat.le_zero.mp hb
    subst hb0
    simp [egcd]
  | succ f ih =>
    intro a b hb
    by_cases hb0 : b = 0
    · subst hb0; simp [egcd]
    · have hblt : a % b ≤ f := by
        have := Nat.mod_lt a (Nat.pos_of_ne_zero hb0)
        omega
      obtain ⟨h1, h2⟩ := ih b (a % b) hblt
      simp only [egcd, hb0, if_false]
      refine ⟨?_, ?_⟩
      · rw [h1, Nat.gcd_comm b (a % b), ← Nat.gcd_rec b a, Nat.gcd_comm b a]
      · have hmod : ((a % b : Nat) : Int) = (a : Int) - (b : Int) * ((a / b : Nat) : Int) := by
          push_cast
          rw [Int.emod_def]
        rw [hmod] at h2
        push_cast at h2 ⊢
        linear_combination h2

theorem modInverse_none (g n : Nat) (hco : Nat.gcd (g % n) n ≠ 1) :
    modInverse g n = none := by
  obtain ⟨h1, _⟩ := egcd_spec n (g % n) n le_rfl
  unfold modInverse
  simp [h1, hco]

theorem modInverse_some (g n : Nat) (hn : 1 < n) (hco : Nat.gcd (g % n) n = 1) :
    ∃ v, modInverse g n = some v ∧ v < n ∧ g * v % n = 1 := by
  haveI : NeZero n := ⟨by omega⟩
  haveI : Fact (1 < n) := ⟨hn⟩
  obtain ⟨h1, h2⟩ := egcd_spec n (g % n) n le_rfl
  rw [hco] at h1
  rw [h1] at h2
  have hnpos : (0 : Int) < (n : Int) := by exact_mod_cast Nat.pos_of_ne_zero (NeZero.ne n)
  have hnn : (0 : Int) ≤ (egcd n (g % n) n).2.1 % (n : Int) :=
    Int.emod_nonneg _ (by omega)
  have hlt : (egcd n (g % n) n).2.1 % (n : Int) < (n : Int) :=
    Int.emod_lt_of_pos _ hnpos
  have hcast : ((((egcd n (g % n) n).2.1 % (n : Int)).toNat : Nat) : Int) =
      (egcd n (g % n) n).2.1 % (n : Int) := Int.toNat_of_nonneg hnn
  refine ⟨((egcd n (g % n) n).2.1 % (n : Int)).toNat, ?_, by omega, ?_⟩
  · unfold modInverse
    rw [h1]
    simp
  · have h2z := congrArg (fun z : Int => (z : ZMod n)) h2
    simp only [Int.cast_add, Int.cast_mul, Int.cast_natCast, Int.cast_one,
      Nat.cast_one] at h2z
    rw [ZMod.natCast_mod, ZMod.natCast_self, zero_mul, add_zero] at h2z
    have hvx : (((((egcd n (g % n) n).2.1 % (n : Int)).toNat : Nat)) : ZMod n) =
        (((egcd n (g % n) n).2.1 : Int) : ZMod n) := by
      rw [← Int.cast_natCast (R := ZMod n), hcast, ZMod.intCast_mod]
    have hmul : ((g * (((egcd n (g % n) n).2.1 % (n : Int)).toNat) : Nat) : ZMod n) = 1 := by
      rw [Nat.cast_mul, hvx, h2z]
    have hval := congrArg ZMod.val hmul
    rw [ZMod.val_natCast, ZMod.val_one] at hval
    exact hval

theorem natToBytesLE_length : ∀ (w n : Nat), (natToBytesLE w n).length = w := by
  intro w
  induction w with
  | zero => intro n; rfl
  | succ v ih => intro n; simp [natToBytesLE, ih]

theorem natToBytesBE_length : ∀ (w n : Nat), (natToBytesBE w n).length = w := by
  intro w
  induction w with
  | zero => intro n; rfl
  | succ v ih => intro n; simp [natToBytesBE, ih]

theorem edPubFromSeed_length (seed : List Nat) : (edPubFromSeed seed).length = 32 := by
  simp [edPubFromSeed, encodeEdPoint, natToBytesLE_length]

theorem cast_powMod (n : Nat) (hn : 0 < n) (a e : Nat) :
    ((powMod a e n : Nat) : ZMod n) = (a : ZMod n) ^ e := by
  rw [powMod_spec _ _ _ hn, ZMod.natCast_mod, Nat.cast_pow]

theorem prime_dvd_prodPows (q : Nat) (hq : Nat.Prime q) :
    ∀ qs : List (Nat × Nat), (∀ qe ∈ qs, Nat.Prime qe.1) →
      q ∣ (qs.map fun qe => qe.1 ^ qe.2).prod → ∃ qe ∈ qs, q = qe.1 := by
  intro qs
  induction qs with
  | nil =>
    intro _ hdvd
    simp only [List.map_nil, List.prod_nil, Nat.dvd_one] at hdvd
    exact absurd hdvd hq.ne_one
  | cons head tail ih =>
    intro hall hdvd
    rw [List.map_cons, List.prod_cons] at hdvd
    rcases (Nat.Prime.dvd_mul hq).mp hdvd with h | h
    · have hd1 : q ∣ head.1 := hq.dvd_of_dvd_pow h
      have he : q = head.1 :=
        (Nat.prime_dvd_prime_iff_eq hq (hall head (by simp))).mp hd1
      exact ⟨head, by simp, he⟩
    · obtain ⟨qe, hmem, heq⟩ := ih (fun x hx => hall x (by simp [hx])) h
      exact ⟨qe, by simp [hmem], heq⟩

/-- Lucas primality certificate checker: a witness `a` of order `n - 1`
modulo `n`, verified through kernel-computable `powMod` runs against the
prime factorisation `qs` of `n - 1`. -/
theorem prattCert (n a : Nat) (qs : List (Nat × Nat)) (hn : 2 ≤ n)
    (hprod : (qs.map fun qe => qe.1 ^ qe.2).prod = n - 1)
    (hq : ∀ qe ∈ qs, Nat.Prime qe.1)
    (ha : powMod a (n - 1) n = 1)
    (hd : ∀ qe ∈ qs, powMod a ((n - 1) / qe.1) n ≠ 1) : Nat.Prime n := by
  have hn0 : 0 < n := by omega
  haveI : NeZero n := ⟨by omega⟩
  haveI : Fact (1 < n) := ⟨by omega⟩
  apply lucas_primality n (a : ZMod n)
  · rw [← cast_powMod n hn0 a (n - 1), ha, Nat.cast_one]
  · intro q hq' hdvd
    rw [← hprod] at hdvd
    obtain ⟨qe, hmem, rfl⟩ := prime_dvd_prodPows q hq' qs hq hdvd
    intro hcontra
    apply hd qe hmem
    have hc := cast_powMod n hn0 a ((n - 1) / qe.1)
    rw [hcontra] at hc
    have hval := congrArg ZMod.val hc
    rw [ZMod.val_natCast, ZMod.val_one] at hval
    rw [Nat.mod_eq_of_lt (powMod_lt _ _ _ hn0)] at hval
    exact hval

theorem prime_2773320623 : Nat.Prime 2773320623 := by
  apply prattCert 2773320623 5 [(2, 1), (2437, 1), (569003, 1)]
  · norm_num
  · decide
  · intro qe hqe
    simp only [List.mem_cons, List.not_mem_nil, or_false] at hqe
    rcases hqe with rfl | rfl | rfl <;> norm_num
  · decide
  · intro qe hqe
    simp only [List.mem_cons, List.not_mem_nil, or_false] at hqe
    rcases hqe with rfl | rfl | rfl <;> decide

theorem prime_72106336199 : Nat.Prime 72106336199 := by
  apply prattCert 72106336199 7 [(2, 1), (13, 1), (2773320623, 1)]
  · norm_num
  · decide
  · intro qe hqe
    simp only [List.mem_cons, List.not_mem_nil, or_false] at hqe
    rcases hqe with rfl | rfl | rfl
    · norm_num
    · norm_num
    · exact prime_2773320623
  · decide
  · intro qe hqe
    simp only [List.mem_cons, List.not_mem_nil, or_false] at hqe
    rcases hqe with rfl | rfl | rfl <;> decide

theorem prime_31757755568855353 : Nat.Prime 31757755568855353 := by
  apply prattCert 31757755568855353 10
    [(2, 3), (3, 1), (31, 1), (107, 1), (223, 1), (4153, 1), (430751, 1)]
  · norm_num
  · decide
  · intro qe hqe
    simp only [List.mem_cons, List.not_mem_nil, or_false] at hqe
    rcases hqe with rfl | rfl | rfl | rfl | rfl | rfl | rfl <;> norm_num
  · decide
  · intro qe hqe
    simp only [List.mem_cons, List.not_mem_nil, or_false] at hqe
    rcases hqe with rfl | rfl | rfl | rfl | rfl | rfl | rfl <;> decide

theorem prime_1919519569386763 : Nat.Prime 1919519569386763 := by
  apply prattCert 1919519569386763 2
    [(2, 1), (3, 1), (7, 1), (19, 1), (47, 2), (127, 1), (8574133, 1)]
  · norm_num
  · decide
  · intro qe hqe
    simp only [List.mem_cons, List.not_mem_nil, or_false] at hqe
    rcases hqe with rfl | rfl | rfl | rfl | rfl | rfl | rfl <;> norm_num
  · decide
  · intro qe hqe
    simp only [List.mem_cons, List.not_mem_nil, or_false] at hqe
    rcases hqe with rfl | rfl | rfl | rfl | rfl | rfl | rfl <;> decide

theorem prime_75445702479781427272750846543864801 :
    Nat.Prime 75445702479781427272750846543864801 := by
  apply prattCert 75445702479781427272750846543864801 7
    [(2, 5), (3, 2), (5, 2), (75707, 1), (72106336199, 1), (1919519569386763, 1)]
  · norm_num
  · decide
  · intro qe hqe
    simp only [List.mem_cons, List.not_mem_nil, or_false] at hqe
    rcases hqe with rfl | rfl | rfl | rfl | rfl | rfl
    · norm_num
    · norm_num
    · norm_num
    · norm_num
    · exact prime_72106336199
    · exact prime_1919519569386763
  · decide
  · intro qe hqe
    simp only [List.mem_cons, List.not_mem_nil, or_false] at hqe
    rcases hqe with rfl | rfl | rfl | rfl | rfl | rfl <;> decide

theorem prime_74058212732561358302231226437062788676166966415465897661863160754340907 :
    Nat.Prime 74058212732561358302231226437062788676166966415465897661863160754340907 := by
  apply prattCert 74058212732561358302231226437062788676166966415465897661863160754340907 2
    [(2, 1), (3, 1), (353, 1), (57467, 1), (132049, 1), (1923133, 1),
      (31757755568855353, 1), (75445702479781427272750846543864801, 1)]
  · norm_num
  · decide
  · intro qe hqe
    simp only [List.mem_cons, List.not_mem_nil, or_false] at hqe
    rcases hqe with rfl | rfl | rfl | rfl | rfl | rfl | rfl | rfl
    · norm_num
    · norm_num
    · norm_num
    · norm_num
    · norm_num
    · norm_num
    · exact prime_31757755568855353
    · exact prime_75445702479781427272750846543864801
  · decide
  · intro qe hqe
    simp only [List.mem_cons, List.not_mem_nil, or_false] at hqe
    rcases hqe with rfl | rfl | rfl | rfl | rfl | rfl | rfl | rfl <;> decide

theorem p25519_prime : Nat.Prime p25519 := by
  apply prattCert p25519 2
    [(2, 2), (3, 1), (65147, 1),
      (74058212732561358302231226437062788676166966415465897661863160754340907, 1)]
  · decide
  · decide
  · intro qe hqe
    simp only [List.mem_cons, List.not_mem_nil, or_false] at hqe
    rcases hqe with rfl | rfl | rfl | rfl
    · norm_num
    · norm_num
    · norm_num
    · exact prime_74058212732561358302231226437062788676166966415465897661863160754340907
  · decide
  · intro qe hqe
    simp only [List.mem_cons, List.not_mem_nil, or_false] at hqe
    rcases hqe with rfl | rfl | rfl | rfl <;> decide

/-! ### Behaviour of the birational converter -/

theorem converter_eq_noDenomCheck (bs : List Nat) :
    ed25519ToX25519PublicKey bs = ed25519ToX25519NoDenomCheck bs := by
  simp only [ed25519ToX25519PublicKey, ed25519ToX25519NoDenomCheck]
  have hfalse : ∀ y : Nat, ¬(p25519 - y + 1 = 0) := fun y => by omega
  simp [hfalse]

theorem converter_rejects_one (bs : List Nat) (hlen : bs.length = 32)
    (hy : bytesToNatLE bs = 1) :
    ed25519ToX25519PublicKey bs = .error .invalidEdKey := by
  have hp : 1 < p25519 := by norm_num [p25519]
  have hinv : modInverse (p25519 - 1 + 1) p25519 = none := by
    apply modInverse_none
    rw [Nat.sub_add_cancel (by omega), Nat.mod_self, Nat.gcd_zero_left]
    norm_num [p25519]
  simp only [bytesToNatLE] at hy
  simp only [ed25519ToX25519PublicKey]
  rw [if_neg (by simp [hlen]), hy, if_neg (by omega), if_neg (by omega), hinv]

theorem converter_ok_char (bs : List Nat) (hlen : bs.length = 32)
    (hy : bytesToNatLE bs < p25519) (h1 : bytesToNatLE bs ≠ 1) :
    ∃ v : Nat, v < p25519 ∧ (p25519 - bytesToNatLE bs + 1) * v % p25519 = 1 ∧
      ed25519ToX25519PublicKey bs =
        .ok ((natToBytesBE 32 ((bytesToNatLE bs + 1) * v % p25519)).reverse) := by
  have hp : 1 < p25519 := by norm_num [p25519]
  have hco : Nat.gcd ((p25519 - bytesToNatLE bs + 1) % p25519) p25519 = 1 := by
    rcases Nat.eq_zero_or_pos (bytesToNatLE bs) with h0 | hpos
    · rw [h0, Nat.sub_zero, Nat.add_mod_left, Nat.mod_eq_of_lt hp, Nat.gcd_one_left]
    · have h2 : 2 ≤ bytesToNatLE bs := by omega
      have hlt : p25519 - bytesToNatLE bs + 1 < p25519 := by omega
      have hpos' : 0 < p25519 - bytesToNatLE bs + 1 := by omega
      rw [Nat.mod_eq_of_lt hlt]
      have hnd : ¬ p25519 ∣ (p25519 - bytesToNatLE bs + 1) := by
        intro hdvd
        have := Nat.le_of_dvd hpos' hdvd
        omega
      exact Nat.Coprime.symm ((Nat.Prime.coprime_iff_not_dvd p25519_prime).mpr hnd)
  obtain ⟨v, hmv, hvlt, hmul⟩ := modInverse_some _ _ hp hco
  refine ⟨v, hvlt, hmul, ?_⟩
  simp only [bytesToNatLE] at hy h1 hmv ⊢
  simp only [ed25519ToX25519PublicKey]
  rw [if_neg (by simp [hlen]), if_neg (not_le.mpr hy), if_neg (by omega), hmv]

/-! ### Claim theorems -/

/-- C1 (counterexample): the converter does not mask the sign bit.  On the
little-endian input with only the top bit set, the claimed masked pipeline
accepts (masked `y = 0`, so `u = 1`), while the source converter rejects
the unmasked value `y = 2^255 ≥ p` with InvalidKey. -/
theorem C1_counterexample :
    ed25519ToX25519PublicKey (List.replicate 31 0 ++ [128]) = .error .invalidEdKey ∧
    maskedConverterClaim (List.replicate 31 0 ++ [128]) = .ok (1 :: List.replicate 31 0) := by
  constructor
  · decide
  · decide

/-- C1 (amended): the converter interprets all 256 bits of the reversed
input as `y` with no sign-bit masking; it rejects `y ≥ p` with InvalidKey
(hence every sign-bit-set encoding), and for canonical `y ≠ 1` it returns
the 32-byte little-endian serialization of the unique `u < p` with
`u · (1 − y) ≡ 1 + y (mod p)`, computed with exact big-integer
arithmetic. -/
theorem C1_converter_amended (bs : List Nat) (hlen : bs.length = 32) :
    (p25519 ≤ bytesToNatLE bs → ed25519ToX25519PublicKey bs = .error .invalidEdKey) ∧
    (bytesToNatLE bs < p25519 → bytesToNatLE bs ≠ 1 →
      ∃ u : Nat, u < p25519 ∧
        u * (p25519 - bytesToNatLE bs + 1) % p25519 = (bytesToNatLE bs + 1) % p25519 ∧
        ed25519ToX25519PublicKey bs = .ok ((natToBytesBE 32 u).reverse)) := by
  constructor
  · intro hge
    simp only [bytesToNatLE] at hge
    simp only [ed25519ToX25519PublicKey]
    rw [if_neg (by simp [hlen]), if_pos hge]
  · intro hy h1
    obtain ⟨v, hvlt, hmul, hres⟩ := converter_ok_char bs hlen hy h1
    refine ⟨(bytesToNatLE bs + 1) * v % p25519, Nat.mod_lt _ (by norm_num [p25519]), ?_, hres⟩
    rw [Nat.mod_mul_mod, mul_assoc, Nat.mul_mod,
      mul_comm v (p25519 - bytesToNatLE bs + 1), hmul, mul_one,
      Nat.mod_mod_of_dvd _ dvd_rfl]

/-- C1 (witness): the amended statement instantiated at the little-endian
encoding of `y = 2`. -/
theorem C1_witness :
    (2 :: List.replicate 31 0).length = 32 ∧
    bytesToNatLE (2 :: List.replicate 31 0) < p25519 ∧
    bytesToNatLE (2 :: List.replicate 31 0) ≠ 1 ∧
    (∃ u : Nat, u < p25519 ∧
      u * (p25519 - bytesToNatLE (2 :: List.replicate 31 0) + 1) % p25519 =
        (bytesToNatLE (2 :: List.replicate 31 0) + 1) % p25519 ∧
      ed25519ToX25519PublicKey (2 :: List.replicate 31 0) =
        .ok ((natToBytesBE 32 u).reverse)) :=
  ⟨by decide, by decide, by decide,
    (C1_converter_amended (2 :: List.replicate 31 0) (by decide)).2 (by decide) (by decide)⟩

/-- C2: the backends do not produce byte-identical results for the same
seed.  On the all-zero seed, the tweetnacl backend derives the X25519
Montgomery public key while the noble backend derives the Ed25519 Edwards
public key; the two 33-byte wire keys differ. -/
theorem C2_backends_disagree :
    createKeyPairTweetnacl (some ⟨true, seedZero⟩) =
      .ok (5 :: [47, 229, 125, 163, 71, 205, 98, 67, 21, 40, 218, 172, 95, 187,
        41, 7, 48, 255, 246, 132, 175, 196, 207, 194, 237, 144, 153, 95, 88,
        203, 59, 116], seedZero) ∧
    createKeyPairNoble (some ⟨true, seedZero⟩) =
      .ok (5 :: [59, 106, 39, 188, 206, 182, 164, 45, 98, 163, 168, 208, 42,
        111, 13, 115, 101, 50, 21, 119, 29, 226, 67, 166, 58, 192, 72, 161,
        139, 89, 218, 41], seedZero) ∧
    createKeyPairTweetnacl (some ⟨true, seedZero⟩) ≠
      createKeyPairNoble (some ⟨true, seedZero⟩) := by
  refine ⟨by decide, by decide, by decide⟩

/-- C3: `createKeyPair` of the big-integer WASM backend is not
deterministic.  The seed `01 00 … 00` derives an Ed25519 public key with
the sign bit set, the conversion fails, and the retry loop replaces the
seed with fresh random bytes: with two different modelled randomness
streams the same input seed yields two different key pairs (and the
returned private key is the random replacement, not the input seed). -/
theorem C3_retry_nondeterministic :
    createKeyPairBigInt seedOne [seedZero] ≠ createKeyPairBigInt seedOne [seedThree] ∧
    createKeyPairBigInt seedOne [seedZero] =
      .ok (5 :: [59, 106, 39, 188, 206, 182, 164, 45, 98, 163, 168, 208, 42,
        111, 13, 115, 101, 50, 21, 119, 29, 226, 67, 166, 58, 192, 72, 161,
        139, 89, 218, 41], seedZero) ∧
    createKeyPairBigInt seedOne [seedThree] =
      .ok (5 :: [218, 219, 209, 132, 162, 213, 38, 241, 235, 221, 92, 6, 253,
        173, 147, 89, 178, 40, 117, 155, 77, 127, 121, 214, 102, 137, 250, 37,
        74, 173, 133, 70], seedThree) := by
  refine ⟨by decide, by decide, by decide⟩

/-- C4: `createKeyPair` of src/lib/main.go does not return the seed as the
private key: it returns the full 64-byte expanded `ed25519.PrivateKey`
(seed concatenated with public key), so the returned private key has
length 64 and never equals the 32-byte input seed. -/
theorem C4_privkey_expanded (seed : List Nat) (hlen : seed.length = 32) :
    createKeyPairMainGo seed =
      .ok (encodePubKey (edPubFromSeed seed), seed ++ edPubFromSeed seed) ∧
    (seed ++ edPubFromSeed seed).length = 64 ∧
    seed ++ edPubFromSeed seed ≠ seed := by
  refine ⟨?_, ?_, ?_⟩
  · simp [createKeyPairMainGo, hlen]
  · simp [hlen, edPubFromSeed_length]
  · intro h
    have hl := congrArg List.length h
    simp [hlen, edPubFromSeed_length] at hl

/-- C4 (witness): the statement instantiated at the all-zero seed. -/
theorem C4_witness :
    seedZero.length = 32 ∧
    (createKeyPairMainGo seedZero =
      .ok (encodePubKey (edPubFromSeed seedZero), seedZero ++ edPubFromSeed seedZero) ∧
    (seedZero ++ edPubFromSeed seedZero).length = 64 ∧
    seedZero ++ edPubFromSeed seedZero ≠ seedZero) :=
  ⟨by decide, C4_privkey_expanded seedZero (by decide)⟩

/-- C5 (counterexample): in the curve25519-js backend, `shortCircuit = true`
does not bypass the format checks: with a well-formed public key and
message but a 63-byte signature, `verifySignature` raises InvalidSignature
instead of returning `true`. -/
theorem C5_counterexample :
    verifySignatureCjs (fun _ _ _ => false) (some ⟨true, 5 :: List.replicate 32 0⟩)
        (some ⟨true, [116, 101, 115, 116]⟩) (some ⟨true, List.replicate 63 0⟩) true =
      .error .invalidSignature ∧
    verifySignatureCjs (fun _ _ _ => false) (some ⟨true, 5 :: List.replicate 32 0⟩)
        (some ⟨true, [116, 101, 115, 116]⟩) (some ⟨true, List.replicate 63 0⟩) true ≠
      .ok true := by
  constructor
  · decide
  · decide

/-- C5 (amended): in the noble variant, `shortCircuit = true` returns
`true` unconditionally before any decoding or checking, for every input
including malformed ones; in the curve25519-js backend, the public-key,
message and signature format validation still runs first and malformed
inputs raise, with `true` returned only once all shape checks pass. -/
theorem C5_short_circuit_amended :
    (∀ (libVerify : List Nat → List Nat → List Nat → Bool)
        (pub msg sig : Option JSBytes),
      verifySignatureNoble libVerify pub msg sig true = .ok true) ∧
    (∀ (libVerify : List Nat → List Nat → List Nat → Bool) (pb mb sb : JSBytes),
      pb.isBuffer = true →
      ((pb.bytes.length = 33 ∧ pb.bytes.headD 0 = 5) ∨ pb.bytes.length = 32) →
      sb.bytes.length = 64 →
      verifySignatureCjs libVerify (some pb) (some mb) (some sb) true = .ok true) := by
  constructor
  · intro libVerify pub msg sig
    rfl
  · intro libVerify pb mb sb hbuf hshape hsig
    rcases hshape with ⟨h33, h5⟩ | h32
    · have h5q : pb.bytes.head?.getD 0 = 5 := by
        rw [← List.headD_eq_head?]
        exact h5
      have htail : pb.bytes.tail.length = 32 := by
        simp [List.length_tail, h33]
      simp [verifySignatureCjs, scrubPubKeyFormat, hbuf, h33, h5, h5q, htail, hsig]
    · by_cases h33 : pb.bytes.length = 33
      · omega
      · simp [verifySignatureCjs, scrubPubKeyFormat, hbuf, h32, h33, hsig]

/-- C5 (witness): the amended statement applied to a well-formed tagged
key, message and 64-byte signature (curve25519-js backend) and to a
malformed non-Buffer key with an absent signature (noble variant). -/
theorem C5_witness :
    verifySignatureNoble (fun _ _ _ => false) (some ⟨false, ([] : List Nat)⟩) none none true =
      .ok true ∧
    verifySignatureCjs (fun _ _ _ => false) (some ⟨true, 5 :: List.replicate 32 0⟩)
      (some ⟨true, [1]⟩) (some ⟨true, List.replicate 64 0⟩) true = .ok true :=
  ⟨C5_short_circuit_amended.1 _ _ _ _,
    C5_short_circuit_amended.2 _ ⟨true, 5 :: List.replicate 32 0⟩ ⟨true, [1]⟩
      ⟨true, List.replicate 64 0⟩ (by decide) (by decide) (by decide)⟩

/-- C6: `calculateSignature` of the curve25519-js backend does not reject a
zero-length message: an empty `Buffer` is truthy in JavaScript, so the
`!message` guard passes and the library signing call is performed on the
empty message, while the big-integer Go backend checks `len(message) == 0`
and rejects it with InvalidMessage before any cryptography. -/
theorem C6_empty_message (libSign : List Nat → List Nat → List Nat)
    (libSignGo : List Nat → List Nat → List Nat) (s : List Nat)
    (hlen : s.length = 32) :
    calculateSignatureCjs libSign (some ⟨true, s⟩) (some ⟨true, []⟩) = .ok (libSign s []) ∧
    calculateSignatureBigInt libSignGo s [] = .error .invalidMessage := by
  constructor
  · simp [calculateSignatureCjs, validatePrivKey, hlen]
  · simp [calculateSignatureBigInt, hlen]

/-- C6 (witness): the statement instantiated at the all-zero seed with a
constant signing stub. -/
theorem C6_witness :
    seedZero.length = 32 ∧
    (calculateSignatureCjs (fun _ _ : List Nat => List.replicate 64 0)
        (some ⟨true, seedZero⟩) (some ⟨true, ([] : List Nat)⟩) =
        .ok (List.replicate 64 0) ∧
      calculateSignatureBigInt (fun _ _ : List Nat => List.replicate 64 0) seedZero [] =
        .error .invalidMessage) :=
  ⟨by decide, C6_empty_message (fun _ _ => List.replicate 64 0)
    (fun _ _ => List.replicate 64 0) seedZero (by decide)⟩

/-- C7: the converter rejects the canonical encoding of `y = 1` (the
degenerate point with zero denominator `(1 - y) mod p`) with InvalidKey
rather than producing a Montgomery coordinate. -/
theorem C7_identity_rejected (bs : List Nat) (hlen : bs.length = 32)
    (hy : bytesToNatLE bs = 1) :
    ed25519ToX25519PublicKey bs = .error .invalidEdKey :=
  converter_rejects_one bs hlen hy

/-- C7 (witness): the statement instantiated at the little-endian encoding
of `y = 1`. -/
theorem C7_witness :
    (1 :: List.replicate 31 0).length = 32 ∧
    bytesToNatLE (1 :: List.replicate 31 0) = 1 ∧
    ed25519ToX25519PublicKey (1 :: List.replicate 31 0) = .error .invalidEdKey :=
  ⟨by decide, by decide, C7_identity_rejected (1 :: List.replicate 31 0) (by decide) (by decide)⟩

/-- C8: codec round trip.  For every 32-byte coordinate below the field
prime, prepending the tag byte 5 (`encode`) and scrubbing the wire key
(`decode`) returns the coordinate unchanged. -/
theorem C8_codec_roundtrip (u : List Nat) (hlen : u.length = 32)
    (_hcanon : bytesToNatLE u < p25519) :
    scrubPubKeyFormat (some ⟨true, encodePubKey u⟩) = .ok u := by
  simp [scrubPubKeyFormat, encodePubKey, hlen]

/-- C8 (witness): the round trip at the all-zero coordinate. -/
theorem C8_witness :
    seedZero.length = 32 ∧ bytesToNatLE seedZero < p25519 ∧
    scrubPubKeyFormat (some ⟨true, encodePubKey seedZero⟩) = .ok seedZero :=
  ⟨by decide, by decide, C8_codec_roundtrip seedZero (by decide) (by decide)⟩

/-- C9: the curve25519-js backend accepts key material only as a Node
`Buffer`: a 32-byte value of any other binary type is rejected with an
invalid-type error by all four public operations, even though the byte
payload itself is well formed. -/
theorem C9_buffer_type_required (b : List Nat) (_hlen : b.length = 32)
    (libGen : List Nat → List Nat × List Nat)
    (libShared : List Nat → List Nat → List Nat)
    (libSign : List Nat → List Nat → List Nat)
    (libVerify : List Nat → List Nat → List Nat → Bool)
    (priv msg sig : Option JSBytes) (isInit : Bool) :
    createKeyPairCjs libGen (some ⟨false, b⟩) = .error .invalidPrivKeyType ∧
    calculateAgreementCjs libShared (some ⟨false, b⟩) priv = .error .invalidPubKeyType ∧
    calculateSignatureCjs libSign (some ⟨false, b⟩) msg = .error .invalidPrivKeyType ∧
    verifySignatureCjs libVerify (some ⟨false, b⟩) msg sig isInit = .error .invalidPubKeyType :=
  ⟨rfl, rfl, rfl, rfl⟩

/-- C9 (witness): the statement instantiated at an all-zero 32-byte
non-Buffer value with stub libraries. -/
theorem C9_witness :
    seedZero.length = 32 ∧
    (createKeyPairCjs (fun s => (s, s)) (some ⟨false, seedZero⟩) =
        .error .invalidPrivKeyType ∧
      calculateAgreementCjs (fun _ _ => seedZero) (some ⟨false, seedZero⟩) none =
        .error .invalidPubKeyType ∧
      calculateSignatureCjs (fun _ _ => seedZero) (some ⟨false, seedZero⟩) none =
        .error .invalidPrivKeyType ∧
      verifySignatureCjs (fun _ _ _ => true) (some ⟨false, seedZero⟩) none none false =
        .error .invalidPubKeyType) :=
  ⟨by decide, C9_buffer_type_required seedZero (by decide) (fun s => (s, s))
    (fun _ _ => seedZero) (fun _ _ => seedZero) (fun _ _ _ => true) none none none false⟩

/-- C10: for every canonical input (`y < p`) the computed denominator
`p - y + 1`, taken without reduction, lies in `[2, p + 1]`, so the
explicit zero-denominator check never fires (the converter equals its
variant without that check on every input); the only canonical value
rejected afterwards is `y = 1`, caught by the missing-modular-inverse
branch, and for every other `y < p` the converter succeeds with a 32-byte
result. -/
theorem C10_denominator_unreachable (bs : List Nat) (hlen : bs.length = 32)
    (hy : bytesToNatLE bs < p25519) :
    (2 ≤ p25519 - bytesToNatLE bs + 1 ∧ p25519 - bytesToNatLE bs + 1 ≤ p25519 + 1) ∧
    ed25519ToX25519PublicKey bs = ed25519ToX25519NoDenomCheck bs ∧
    (bytesToNatLE bs = 1 →
      modInverse (p25519 - bytesToNatLE bs + 1) p25519 = none ∧
      ed25519ToX25519PublicKey bs = .error .invalidEdKey) ∧
    (bytesToNatLE bs ≠ 1 →
      ∃ r, ed25519ToX25519PublicKey bs = .ok r ∧ r.length = 32) := by
  refine ⟨⟨by omega, by omega⟩, converter_eq_noDenomCheck bs, ?_, ?_⟩
  · intro h1
    refine ⟨?_, converter_rejects_one bs hlen h1⟩
    rw [h1]
    apply modInverse_none
    rw [Nat.sub_add_cancel (by omega), Nat.mod_self, Nat.gcd_zero_left]
    norm_num [p25519]
  · intro h1
    obtain ⟨v, hvlt, hmul, hres⟩ := converter_ok_char bs hlen hy h1
    exact ⟨_, hres, by simp [natToBytesBE_length]⟩

/-- C10 (witness): the statement instantiated at the little-endian
encoding of `y = 2`. -/
theorem C10_witness :
    (2 :: List.replicate 31 0).length = 32 ∧
    bytesToNatLE (2 :: List.replicate 31 0) < p25519 ∧
    ((2 ≤ p25519 - bytesToNatLE (2 :: List.replicate 31 0) + 1 ∧
      p25519 - bytesToNatLE (2 :: List.replicate 31 0) + 1 ≤ p25519 + 1) ∧
    ed25519ToX25519PublicKey (2 :: List.replicate 31 0) =
      ed25519ToX25519NoDenomCheck (2 :: List.replicate 31 0) ∧
    (bytesToNatLE (2 :: List.replicate 31 0) = 1 →
      modInverse (p25519 - bytesToNatLE (2 :: List.replicate 31 0) + 1) p25519 = none ∧
      ed25519ToX25519PublicKey (2 :: List.replicate 31 0) = .error .invalidEdKey) ∧
    (bytesToNatLE (2 :: List.replicate 31 0) ≠ 1 →
      ∃ r, ed25519ToX25519PublicKey (2 :: List.replicate 31 0) = .ok r ∧ r.length = 32)) :=
  ⟨by decide, by decide,
    C10_denominator_unreachable (2 :: List.replicate 31 0) (by decide) (by decide)⟩

end Signal
